import Mathlib

/-!
# Verification of the MLP-Mixer notebook model

A shallow embedding of the model code in `src/MLPMixer.ipynb` (classes
`MLPblock`, `MixerLayer`, the truncated `MLP_Mixer`) together with the
components the repository's specification describes but whose code is
missing from the truncated source (patch embedding, network assembly).

Tensors are nested lists of rationals in row-major orientation:
a batched activation tensor of shape (batch, S, C) is a list of `batch`
matrices, each a list of `S` channel vectors of length `C`.  The GELU
activation and the normalization layers are real-valued functions of the
host framework; they enter the embedding as explicit function parameters
(`σ` for the activation, `token_ln` / `channel_ln` for the normalizations),
so every theorem quantifies over them and witnesses instantiate them with
concrete computable maps.
-/

namespace MLPMixer

/-- A vector: one channel row of an activation tensor. -/
abbrev Vec := List ℚ

/-- A matrix: one batch element of shape (S, C), or a weight matrix. -/
abbrev Mat := List Vec

/-- A rank-3 tensor of shape (batch, S, C). -/
abbrev Tensor3 := List Mat

/-- `MatShape m s c`: `m` is a rectangular `s × c` matrix. -/
def MatShape (m : Mat) (s c : ℕ) : Prop :=
  m.length = s ∧ ∀ r ∈ m, r.length = c

instance (m : Mat) (s c : ℕ) : Decidable (MatShape m s c) :=
  inferInstanceAs (Decidable (_ ∧ _))

/-- `HasShape3 x b s c`: `x` is a rectangular tensor of shape (b, s, c). -/
def HasShape3 (x : Tensor3) (b s c : ℕ) : Prop :=
  x.length = b ∧ ∀ m ∈ x, MatShape m s c

instance (x : Tensor3) (b s c : ℕ) : Decidable (HasShape3 x b s c) :=
  inferInstanceAs (Decidable (_ ∧ _))

/-- Dot product of two vectors (used by the linear layers). -/
def dot (a b : Vec) : ℚ := (List.zipWith (· * ·) a b).sum

/-- Elementwise sum of two vectors (tensor `+`, one row). -/
def addVec (u v : Vec) : Vec := List.zipWith (· + ·) u v

/-- `nn.Linear` applied to one vector on the last axis: `y = W·v + bias`,
with `W` stored as (out_features, in_features) as the framework does. -/
def linearVec (W : Mat) (bias : Vec) (v : Vec) : Vec :=
  addVec (W.map fun row => dot row v) bias

/-- Apply a vector-to-vector map to every last-axis vector of a tensor
(this is how `nn.Linear`, activations and per-vector normalization act on a
(batch, S, C) tensor). -/
def onRows (f : Vec → Vec) (x : Tensor3) : Tensor3 :=
  x.map fun m => m.map f

/-- Transpose of a rectangular matrix, reading the column count from the
first row (the embedding of `Tensor.transpose(1,2)` on one batch element). -/
def transposeRect (m : Mat) : Mat :=
  (List.range (m.headD []).length).map fun j => m.map fun row => row.getD j 0

/-- The embedding of `x.transpose(1,2)` on a (batch, S, C) tensor. -/
def transpose12 (x : Tensor3) : Tensor3 := x.map transposeRect

/-- Elementwise sum of two matrices. -/
def addMat (u v : Mat) : Mat := List.zipWith addVec u v

/-- Elementwise sum of two rank-3 tensors: the embedding of `x + out`. -/
def add3 (u v : Tensor3) : Tensor3 := List.zipWith addMat u v

/-- Parameters of the source class `MLPblock(dim_hidden, mlp_out)`:
the two `nn.Linear` layers of its `nn.Sequential`. -/
structure MLPblock where
  w1 : Mat
  b1 : Vec
  w2 : Mat
  b2 : Vec

/-- `MLPblock.forward`, the source's `self.mlp(x)`:
`nn.Linear(dim_hidden, mlp_out)`, then GELU (the abstract activation `σ`
applied elementwise), then `nn.Linear(mlp_out, dim_hidden)`. -/
def MLPblock.forward (σ : ℚ → ℚ) (m : MLPblock) (x : Tensor3) : Tensor3 :=
  onRows (linearVec m.w2 m.b2) (onRows (List.map σ) (onRows (linearVec m.w1 m.b1) x))

/-- Well-formedness of an `MLPblock`'s parameters for the constructor call
`MLPblock(dim_hidden, mlp_out)`: `nn.Linear(dim_hidden, mlp_out)` owns a
(mlp_out, dim_hidden) weight and an mlp_out bias, and
`nn.Linear(mlp_out, dim_hidden)` a (dim_hidden, mlp_out) weight and a
dim_hidden bias. -/
def MLPblock.Wf (m : MLPblock) (dim_hidden mlp_out : ℕ) : Prop :=
  MatShape m.w1 mlp_out dim_hidden ∧ m.b1.length = mlp_out ∧
    MatShape m.w2 dim_hidden mlp_out ∧ m.b2.length = dim_hidden

instance (m : MLPblock) (d h : ℕ) : Decidable (m.Wf d h) :=
  inferInstanceAs (Decidable (_ ∧ _))

/-- `MixerLayer.forward` exactly as the source writes it.  The constructed
normalization modules `self.token_ln` / `self.channel_ln` and the two MLP
blocks are parameters (the source constructor cannot build them, see
`MixerLayer.init`), and `σ` is the activation used inside the blocks:
```
out = self.token_ln(x)
out = out.transpose(1,2)
out = self.token_mix(out)
out = out.transpose(1,2)
out = self.channel_ln(x+out)
out = self.channel_mix(out)
return x + out
```
Note the final residual adds the original `x`, not `x + token_out`. -/
def MixerLayer.forward (token_ln channel_ln : Vec → Vec) (σ : ℚ → ℚ)
    (token_mix channel_mix : MLPblock) (x : Tensor3) : Tensor3 :=
  let out := onRows token_ln x
  let out := transpose12 out
  let out := token_mix.forward σ out
  let out := transpose12 out
  let out := onRows channel_ln (add3 x out)
  let out := channel_mix.forward σ out
  add3 x out

/-- Modelled from the spec: the corrected Mixer Layer of §4.2, written with
the spec's named steps; step 8 forms `output = x1 + channel_out` with `x1`,
the token-mixed intermediate, as the residual operand. -/
def mixerLayerSpecForward (token_ln channel_ln : Vec → Vec) (σ : ℚ → ℚ)
    (token_mix channel_mix : MLPblock) (x : Tensor3) : Tensor3 :=
  let normed1 := onRows token_ln x
  let transposed := transpose12 normed1
  let token_out := token_mix.forward σ transposed
  let token_out_restored := transpose12 token_out
  let x1 := add3 x token_out_restored
  let normed2 := onRows channel_ln x1
  let channel_out := channel_mix.forward σ normed2
  add3 x1 channel_out

/-! ## Construction of the source classes

The body of `MixerLayer.__init__` is executed only when the class is
instantiated; its first statement resolves the attribute `LinearNorm` on the
framework module `nn`, and later statements resolve the global `MLPBlock`.
We embed the relevant name environments and the constructor's resolution
order. -/

/-- The errors a constructor call of the notebook can raise. -/
inductive PyError where
  | attributeError (n : String)
  | nameError (n : String)
  | truncatedClass
deriving DecidableEq

/-- Modelled from the spec: the attribute names the external framework's
`nn` module provides among those the notebook could reach; per the spec,
`LinearNorm` "does not exist" in the framework (the normalization layer it
offers is `LayerNorm`). -/
def nnAttrs : List String :=
  ["Module", "Linear", "GELU", "Sequential", "LayerNorm", "Dropout", "Softmax", "Conv2d"]

/-- The global names the notebook's code cell defines or imports: the
imports of the first code cell and the two classes defined before
`MixerLayer.__init__` can run.  The defined MLP block class is `MLPblock`
(lower-case b); no `MLPBlock` is ever defined. -/
def notebookGlobals : List String :=
  ["torch", "torchvision", "nn", "MLPblock", "MixerLayer"]

/-- Resolving an attribute on the `nn` module: missing attributes raise
`AttributeError`. -/
def resolveNnAttr (n : String) : Except PyError Unit :=
  if n ∈ nnAttrs then .ok () else .error (.attributeError n)

/-- Resolving a global name of the notebook: missing names raise
`NameError`. -/
def resolveGlobal (n : String) : Except PyError Unit :=
  if n ∈ notebookGlobals then .ok () else .error (.nameError n)

/-- `MixerLayer.__init__(patches_num, dim_hidden, dim_tokens, dim_channels)`:
the statements of the source constructor in order, each reduced to the name
resolution it performs; the first failure aborts the call. -/
def MixerLayer.init (patches_num dim_hidden dim_tokens dim_channels : ℕ) :
    Except PyError Unit := do
  resolveNnAttr "LinearNorm"    -- self.token_ln = nn.LinearNorm(dim_hidden)
  resolveGlobal "MLPBlock"      -- self.token_mix = MLPBlock(dim_hidden, dim_tokens)
  resolveNnAttr "LinearNorm"    -- self.channel_ln = nn.LinearNorm(dim_hidden)
  resolveGlobal "MLPBlock"      -- self.channel_mix = MLPBlock(dim_hidden, dim_channels)
  return ()

/-- The source text of `class MLP_Mixer` stops in the middle of its
`__init__` parameter list (`def __init__(self, num_classes, num_blocks,
size_patch,` is the last line of the notebook's code); no complete class
object exists, so any attempted instantiation fails. -/
def MLP_Mixer.init : Except PyError Unit := .error .truncatedClass

/-! ## Patch embedding and network assembly

The final network code is truncated out of the source, so these components
are modelled from the specification (§4.3, §4.4). -/

/-- One input image: channels × H × W. -/
abbrev Image := List Mat

/-- Configuration errors of §7: invalid dimension relationships. -/
inductive ConfigError where
  | configurationError
deriving DecidableEq

/-- Modelled from the spec (§4.3): patch embedding "requires `H % P == 0`
and `W % P == 0`, else fails with a ConfigurationError", detected eagerly at
model construction time. -/
def patchEmbedCheck (H W P : ℕ) : Except ConfigError Unit :=
  if H % P = 0 ∧ W % P = 0 then .ok () else .error .configurationError

/-- Modelled from the spec (§4.3): the pixels of the P×P patch at patch
coordinates (i, j) of an image, flattened across channels. -/
def flattenPatch (P : ℕ) (img : Image) (i j : ℕ) : Vec :=
  img.flatMap fun channelMat =>
    ((channelMat.drop (i * P)).take P).flatMap fun row => (row.drop (j * P)).take P

/-- Modelled from the spec (§4.3): patch embedding forward — partition each
image into non-overlapping P×P patches, flatten each patch across channels,
and apply one shared linear projection to dimension C; patches are emitted
row-major, giving shape (batch, (H/P)·(W/P), C). -/
def patchEmbedForward (P H W : ℕ) (wts : Mat) (bias : Vec) (imgs : List Image) : Tensor3 :=
  imgs.map fun img =>
    (List.range (H / P)).flatMap fun i =>
      (List.range (W / P)).map fun j => linearVec wts bias (flattenPatch P img i j)

/-- Parameters of one Mixer layer of the assembled network: its token-mixing
and channel-mixing MLP blocks. -/
structure MixerLayerParams where
  tokenMix : MLPblock
  channelMix : MLPblock

/-- Modelled from the spec (§4.4): parameters of the assembled network —
patch-embedding projection, `num_blocks` Mixer layers with independent
parameters, and the classifier head. -/
structure MixerNetParams where
  embedW : Mat
  embedB : Vec
  layers : List MixerLayerParams
  headW : Mat
  headB : Vec

/-- Columnwise sum of the S channel vectors of one batch element. -/
def vecSum (rows : Mat) : Vec :=
  rows.foldr addVec (List.replicate (rows.headD []).length 0)

/-- Modelled from the spec (§4.4): global average pooling over the token
axis, reducing (batch, S, C) to (batch, C). -/
def avgPool (x : Tensor3) : Mat :=
  x.map fun m => (vecSum m).map fun q => q / (m.length : ℚ)

/-- Modelled from the spec (§4.4): end-to-end forward pass — patch
embedding, the sequence of Mixer layers, global average pooling, final
linear classifier producing logits (no softmax). -/
def MixerNetwork.forward (σ : ℚ → ℚ) (ln : Vec → Vec) (P H W : ℕ)
    (p : MixerNetParams) (imgs : List Image) : Mat :=
  let x := patchEmbedForward P H W p.embedW p.embedB imgs
  let x := p.layers.foldl
    (fun acc l => MixerLayer.forward ln ln σ l.tokenMix l.channelMix acc) x
  (avgPool x).map (linearVec p.headW p.headB)

/-- An all-zero weight/bias MLP block for `MLPblock(d, h)`. -/
def zblock (d h : ℕ) : MLPblock :=
  ⟨List.replicate h (List.replicate d 0), List.replicate h 0,
   List.replicate d (List.replicate h 0), List.replicate d 0⟩

/-- The all-zero tensor of shape (b, s, c). -/
def zt3 (b s c : ℕ) : Tensor3 :=
  List.replicate b (List.replicate s (List.replicate c 0))

/-- The all-zero network of the spec's end-to-end sanity check:
`num_classes=10, num_blocks=2, patch_size=16, hidden_dim=128,
token_hidden=256, channel_hidden=512, image_size=(64,64)`, three input
channels, every weight matrix and bias vector zero.  The patch count is
S = (64/16)·(64/16) = 16 and each flattened patch has 3·16·16 = 768
entries. -/
def zeroMixerNet : MixerNetParams where
  embedW := List.replicate 128 (List.replicate 768 0)
  embedB := List.replicate 128 0
  layers := List.replicate 2 ⟨zblock 16 256, zblock 128 512⟩
  headW := List.replicate 10 (List.replicate 128 0)
  headB := List.replicate 10 0

/-- A batch of 4 zero-valued 3×64×64 images. -/
def zeroImages4 : List Image :=
  List.replicate 4 (List.replicate 3 (List.replicate 64 (List.replicate 64 0)))

/-- A 1×1 MLP block acting as the identity (unit weights, zero biases),
used for concrete evaluations. -/
def idBlock : MLPblock := ⟨[[1]], [0], [[1]], [0]⟩

/-! ## List helper lemmas -/

theorem headD_eq_getD {α : Type _} (l : List α) (d : α) : l.headD d = l.getD 0 d := by
  cases l <;> rfl

theorem getD_map_of_lt {α β : Type _} (f : α → β) (l : List α) (i : ℕ) (d : β)
    (h : i < l.length) : (l.map f).getD i d = f l[i] := by
  rw [List.getD_eq_getElem _ _ (by simpa using h), List.getElem_map]

theorem map_range_getD {α : Type _} (l : List α) (d : α) :
    (List.range l.length).map (fun i => l.getD i d) = l := by
  apply List.ext_getElem
  · simp
  · intro n h1 h2
    simp only [List.getElem_map, List.getElem_range]
    exact List.getD_eq_getElem l d h2

theorem map_const_replicate {α β : Type _} (l : List α) (z : β) (g : α → β)
    (h : ∀ a ∈ l, g a = z) : l.map g = List.replicate l.length z := by
  induction l with
  | nil => rfl
  | cons a t ih =>
    rw [List.map_cons, h a (by simp), List.length_cons, List.replicate_succ]
    exact congrArg _ (ih fun a ha => h a (by simp [ha]))

theorem zipWith_replicate_same {α β γ : Type _} (f : α → β → γ) (n : ℕ) (a : α) (b : β) :
    List.zipWith f (List.replicate n a) (List.replicate n b) = List.replicate n (f a b) := by
  induction n with
  | zero => rfl
  | succ k ih => simp [List.replicate_succ, ih]

theorem getD_replicate_zero (c j : ℕ) : (List.replicate c (0 : ℚ)).getD j 0 = 0 := by
  rcases lt_or_le j c with h | h
  · rw [List.getD_eq_getElem _ _ (by simpa using h), List.getElem_replicate]
  · exact List.getD_eq_default _ _ (by simpa using h)

theorem flatMap_congr_replicate {α β : Type _} (l : List α) (g : α → List β) (m : ℕ) (z : β)
    (h : ∀ a ∈ l, g a = List.replicate m z) :
    l.flatMap g = List.replicate (l.length * m) z := by
  induction l with
  | nil => simp
  | cons a t ih =>
    rw [List.flatMap_cons, h a (by simp), ih (fun a ha => h a (by simp [ha])),
      ← List.replicate_add]
    congr 1
    rw [List.length_cons]
    ring

theorem foldr_replicate_fixed {α β : Type _} (f : α → β → β) (n : ℕ) (a : α) (b : β)
    (h : f a b = b) : (List.replicate n a).foldr f b = b := by
  induction n with
  | zero => rfl
  | succ k ih => simp [List.replicate_succ, ih, h]

theorem foldl_replicate_fixed {α β : Type _} (f : β → α → β) (n : ℕ) (a : α) (b : β)
    (h : f b a = b) : (List.replicate n a).foldl f b = b := by
  induction n with
  | zero => rfl
  | succ k ih => rw [List.replicate_succ, List.foldl_cons, h, ih]

/-! ## Shape lemmas -/

theorem length_addVec (u v : Vec) : (addVec u v).length = min u.length v.length := by
  simp [addVec]

theorem length_linearVec (W : Mat) (bias v : Vec) :
    (linearVec W bias v).length = min W.length bias.length := by
  simp [linearVec, length_addVec]

theorem hasShape3_onRows {f : Vec → Vec} {x : Tensor3} {b s c c2 : ℕ}
    (hx : HasShape3 x b s c) (hf : ∀ v : Vec, v.length = c → (f v).length = c2) :
    HasShape3 (onRows f x) b s c2 := by
  obtain ⟨hl, hr⟩ := hx
  refine ⟨by simp [onRows, hl], ?_⟩
  intro m hm
  rw [onRows, List.mem_map] at hm
  obtain ⟨m0, hm0, rfl⟩ := hm
  obtain ⟨h1, h2⟩ := hr m0 hm0
  refine ⟨by simp [h1], ?_⟩
  intro r hrr
  rw [List.mem_map] at hrr
  obtain ⟨v, hv, rfl⟩ := hrr
  exact hf v (h2 v hv)

theorem matShape_transposeRect {m : Mat} {s c : ℕ}
    (h : MatShape m s c) (hs : 0 < s) : MatShape (transposeRect m) c s := by
  obtain ⟨hl, hr⟩ := h
  cases m with
  | nil => rw [List.length_nil] at hl; omega
  | cons a t =>
    have ha : a.length = c := hr a (by simp)
    refine ⟨by simp [transposeRect, ha], ?_⟩
    intro r hrr
    rw [transposeRect, List.mem_map] at hrr
    obtain ⟨j, hj, rfl⟩ := hrr
    simpa using hl

theorem hasShape3_transpose12 {x : Tensor3} {b s c : ℕ}
    (hx : HasShape3 x b s c) (hs : 0 < s) : HasShape3 (transpose12 x) b c s := by
  obtain ⟨hl, hr⟩ := hx
  refine ⟨by simp [transpose12, hl], ?_⟩
  intro m hm
  rw [transpose12, List.mem_map] at hm
  obtain ⟨m0, hm0, rfl⟩ := hm
  exact matShape_transposeRect (hr m0 hm0) hs

theorem hasShape3_MLPblock_forward {σ : ℚ → ℚ} {m : MLPblock} {x : Tensor3}
    {b s c d h : ℕ} (hwf : m.Wf d h) (hx : HasShape3 x b s c) :
    HasShape3 (MLPblock.forward σ m x) b s d := by
  obtain ⟨⟨h1l, _⟩, h1b, ⟨h2l, _⟩, h2b⟩ := hwf
  have s1 : HasShape3 (onRows (linearVec m.w1 m.b1) x) b s h :=
    hasShape3_onRows hx fun v _ => by simp [length_linearVec, h1l, h1b]
  have s2 : HasShape3 (onRows (List.map σ) (onRows (linearVec m.w1 m.b1) x)) b s h :=
    hasShape3_onRows s1 fun v hv => by simp [hv]
  exact hasShape3_onRows s2 fun v _ => by simp [length_linearVec, h2l, h2b]

theorem matShape_addMat {u v : Mat} {s c : ℕ}
    (hu : MatShape u s c) (hv : MatShape v s c) : MatShape (addMat u v) s c := by
  obtain ⟨hul, hur⟩ := hu
  obtain ⟨hvl, hvr⟩ := hv
  refine ⟨by simp [addMat, hul, hvl], ?_⟩
  intro r hr
  rw [List.mem_iff_getElem] at hr
  obtain ⟨i, hi, hre⟩ := hr
  have hiu : i < u.length := by
    have := hi; simp only [addMat, List.length_zipWith] at this; omega
  have hiv : i < v.length := by
    have := hi; simp only [addMat, List.length_zipWith] at this; omega
  subst hre
  have : (addMat u v)[i] = addVec u[i] v[i] := List.getElem_zipWith
  rw [this, length_addVec, hur _ (List.getElem_mem hiu), hvr _ (List.getElem_mem hiv)]
  omega

theorem hasShape3_add3 {u v : Tensor3} {b s c : ℕ}
    (hu : HasShape3 u b s c) (hv : HasShape3 v b s c) : HasShape3 (add3 u v) b s c := by
  obtain ⟨hul, hur⟩ := hu
  obtain ⟨hvl, hvr⟩ := hv
  refine ⟨by simp [add3, hul, hvl], ?_⟩
  intro m hm
  rw [List.mem_iff_getElem] at hm
  obtain ⟨i, hi, hme⟩ := hm
  have hiu : i < u.length := by
    have := hi; simp only [add3, List.length_zipWith] at this; omega
  have hiv : i < v.length := by
    have := hi; simp only [add3, List.length_zipWith] at this; omega
  subst hme
  have : (add3 u v)[i] = addMat u[i] v[i] := List.getElem_zipWith
  rw [this]
  exact matShape_addMat (hur _ (List.getElem_mem hiu)) (hvr _ (List.getElem_mem hiv))

/-! ## Transpose involution -/

theorem length_transposeRect (mm : Mat) :
    (transposeRect mm).length = (mm.headD []).length := by
  simp [transposeRect]

theorem getElem_transposeRect {mm : Mat} {i : ℕ} (h : i < (transposeRect mm).length) :
    (transposeRect mm)[i] = mm.map fun row => row.getD i 0 := by
  simp only [transposeRect, List.getElem_map, List.getElem_range]

theorem transposeRect_transposeRect {m : Mat} {s c : ℕ}
    (h : MatShape m s c) (hc : 0 < c) : transposeRect (transposeRect m) = m := by
  obtain ⟨hl, hr⟩ := h
  by_cases hnil : m = []
  · subst hnil; rfl
  · have hm0 : 0 < m.length := List.length_pos.mpr hnil
    have hhead : (m.headD []).length = c := by
      rw [headD_eq_getD, List.getD_eq_getElem _ _ hm0]
      exact hr _ (List.getElem_mem hm0)
    have ht1 : transposeRect m =
        (List.range c).map fun j => m.map fun row => row.getD j 0 := by
      rw [transposeRect, hhead]
    have ht1len : (transposeRect m).length = c := by rw [ht1]; simp
    have ht1head : ((transposeRect m).headD []).length = m.length := by
      rw [headD_eq_getD, List.getD_eq_getElem _ _ (by rw [ht1len]; exact hc),
        getElem_transposeRect, List.length_map]
    apply List.ext_getElem
    · rw [length_transposeRect, ht1head]
    · intro i h1 h2
      have hmi : (m[i]).length = c := hr _ (List.getElem_mem h2)
      rw [getElem_transposeRect h1, ht1, List.map_map]
      have step2 : ((fun row => row.getD i 0) ∘ fun j => m.map fun row => row.getD j 0) =
          fun j => (m.map fun row => row.getD j 0).getD i 0 := rfl
      rw [step2]
      have step3 : (List.range c).map (fun j => (m.map fun row => row.getD j 0).getD i 0) =
          (List.range c).map fun j => (m[i]).getD j 0 :=
        List.map_congr_left fun j hj => getD_map_of_lt _ _ _ _ h2
      rw [step3, ← hmi]
      exact map_range_getD _ _

theorem transpose12_involution {x : Tensor3} {b s c : ℕ}
    (hx : HasShape3 x b s c) (hc : 0 < c) : transpose12 (transpose12 x) = x := by
  obtain ⟨hl, hr⟩ := hx
  have hcongr : List.map (transposeRect ∘ transposeRect) x = List.map id x :=
    List.map_congr_left fun m hm => transposeRect_transposeRect (hr m hm) hc
  rw [transpose12, transpose12, List.map_map, hcongr, List.map_id]

/-! ## Cancellation of the residual sum -/

theorem addVec_left_cancel : ∀ (w u v : Vec), u.length = w.length → v.length = w.length →
    addVec u w = addVec v w → u = v := by
  intro w
  induction w with
  | nil =>
    intro u v hu hv _
    rw [List.length_nil, List.length_eq_zero] at hu hv
    rw [hu, hv]
  | cons a w ih =>
    intro u v hu hv heq
    rcases u with _ | ⟨x, u⟩
    · simp at hu
    rcases v with _ | ⟨y, v⟩
    · simp at hv
    simp only [addVec, List.zipWith_cons_cons, List.cons.injEq] at heq
    obtain ⟨h1, h2⟩ := heq
    rw [add_right_cancel h1, ih u v (by simpa using hu) (by simpa using hv) h2]

theorem addMat_left_cancel : ∀ (w u v : Mat) (c : ℕ),
    u.length = w.length → v.length = w.length →
    (∀ r ∈ u, r.length = c) → (∀ r ∈ v, r.length = c) → (∀ r ∈ w, r.length = c) →
    addMat u w = addMat v w → u = v := by
  intro w
  induction w with
  | nil =>
    intro u v c hu hv _ _ _ _
    rw [List.length_nil, List.length_eq_zero] at hu hv
    rw [hu, hv]
  | cons a w ih =>
    intro u v c hu hv hru hrv hrw heq
    rcases u with _ | ⟨x, u⟩
    · simp at hu
    rcases v with _ | ⟨y, v⟩
    · simp at hv
    simp only [addMat, List.zipWith_cons_cons, List.cons.injEq] at heq
    obtain ⟨h1, h2⟩ := heq
    have hx : x = y := addVec_left_cancel a x y
      (by rw [hru x (by simp), hrw a (by simp)])
      (by rw [hrv y (by simp), hrw a (by simp)]) h1
    rw [hx, ih u v c (by simpa using hu) (by simpa using hv)
      (fun r hr => hru r (by simp [hr])) (fun r hr => hrv r (by simp [hr]))
      (fun r hr => hrw r (by simp [hr])) h2]

theorem add3_left_cancel : ∀ (w u v : Tensor3) (s c : ℕ),
    u.length = w.length → v.length = w.length →
    (∀ m ∈ u, MatShape m s c) → (∀ m ∈ v, MatShape m s c) → (∀ m ∈ w, MatShape m s c) →
    add3 u w = add3 v w → u = v := by
  intro w
  induction w with
  | nil =>
    intro u v s c hu hv _ _ _ _
    rw [List.length_nil, List.length_eq_zero] at hu hv
    rw [hu, hv]
  | cons a w ih =>
    intro u v s c hu hv hru hrv hrw heq
    rcases u with _ | ⟨x, u⟩
    · simp at hu
    rcases v with _ | ⟨y, v⟩
    · simp at hv
    simp only [add3, List.zipWith_cons_cons, List.cons.injEq] at heq
    obtain ⟨h1, h2⟩ := heq
    obtain ⟨hxl, hxr⟩ := hru x (by simp)
    obtain ⟨hyl, hyr⟩ := hrv y (by simp)
    obtain ⟨hal, har⟩ := hrw a (by simp)
    have hx : x = y := addMat_left_cancel a x y c
      (by rw [hxl, hal]) (by rw [hyl, hal]) hxr hyr har h1
    rw [hx, ih u v s c (by simpa using hu) (by simpa using hv)
      (fun m hm => hru m (by simp [hm])) (fun m hm => hrv m (by simp [hm]))
      (fun m hm => hrw m (by simp [hm])) h2]

/-! ## Zero propagation -/

theorem dot_replicate_zero : ∀ (n : ℕ) (v : Vec), dot (List.replicate n 0) v = 0 := by
  intro n
  induction n with
  | zero => intro v; rfl
  | succ k ih =>
    intro v
    cases v with
    | nil => simp [dot]
    | cons a t =>
      have ht := ih t
      rw [dot] at ht ⊢
      rw [List.replicate_succ, List.zipWith_cons_cons, List.sum_cons, ht]
      ring

theorem addVec_replicate_zero (n : ℕ) :
    addVec (List.replicate n (0 : ℚ)) (List.replicate n 0) = List.replicate n 0 := by
  rw [addVec, zipWith_replicate_same, add_zero]

theorem linearVec_zero (outN inN : ℕ) (v : Vec) :
    linearVec (List.replicate outN (List.replicate inN 0)) (List.replicate outN 0) v =
      List.replicate outN 0 := by
  rw [linearVec, List.map_replicate, dot_replicate_zero, addVec_replicate_zero]

theorem onRows_replicate (f : Vec → Vec) (b s : ℕ) (v : Vec) :
    onRows f (List.replicate b (List.replicate s v)) =
      List.replicate b (List.replicate s (f v)) := by
  simp [onRows, List.map_replicate]

theorem zblock_forward_zero (σ : ℚ → ℚ) (hσ : σ 0 = 0) (d h b s c : ℕ) :
    (zblock d h).forward σ (zt3 b s c) = zt3 b s d := by
  show onRows (linearVec (zblock d h).w2 (zblock d h).b2)
      (onRows (List.map σ) (onRows (linearVec (zblock d h).w1 (zblock d h).b1) (zt3 b s c)))
      = zt3 b s d
  rw [zt3, zblock]
  rw [onRows_replicate, linearVec_zero, onRows_replicate, List.map_replicate, hσ,
    onRows_replicate, linearVec_zero, zt3]

theorem transposeRect_replicate_zero (s c : ℕ) (hs : 0 < s) :
    transposeRect (List.replicate s (List.replicate c (0 : ℚ))) =
      List.replicate c (List.replicate s 0) := by
  have hh : ((List.replicate s (List.replicate c (0 : ℚ))).headD []).length = c := by
    cases s with
    | zero => omega
    | succ k => simp [List.replicate_succ]
  rw [transposeRect, hh]
  have hinner : ∀ j ∈ List.range c,
      (List.replicate s (List.replicate c (0 : ℚ))).map (fun row => row.getD j 0) =
        List.replicate s 0 := by
    intro j hj
    rw [List.map_replicate, getD_replicate_zero]
  rw [map_const_replicate _ (List.replicate s (0 : ℚ)) _ hinner, List.length_range]

theorem transpose12_zt3 (b s c : ℕ) (hs : 0 < s) :
    transpose12 (zt3 b s c) = zt3 b c s := by
  rw [zt3, transpose12, List.map_replicate, transposeRect_replicate_zero s c hs, zt3]

theorem add3_zt3 (b s c : ℕ) : add3 (zt3 b s c) (zt3 b s c) = zt3 b s c := by
  rw [zt3, add3, zipWith_replicate_same, addMat, zipWith_replicate_same,
    addVec_replicate_zero]

theorem mixerLayer_forward_zero (ln : Vec → Vec) (σ : ℚ → ℚ) (hσ : σ 0 = 0)
    (hln : ∀ n : ℕ, ln (List.replicate n 0) = List.replicate n 0)
    (b s c th chh : ℕ) (hs : 0 < s) (hc : 0 < c) :
    MixerLayer.forward ln ln σ (zblock s th) (zblock c chh) (zt3 b s c) = zt3 b s c := by
  show add3 (zt3 b s c)
      ((zblock c chh).forward σ (onRows ln (add3 (zt3 b s c)
        (transpose12 ((zblock s th).forward σ (transpose12 (onRows ln (zt3 b s c))))))))
      = zt3 b s c
  rw [zt3, onRows_replicate, hln, ← zt3, transpose12_zt3 b s c hs,
    zblock_forward_zero σ hσ s th b c s, transpose12_zt3 b c s hc, add3_zt3,
    zt3, onRows_replicate, hln, ← zt3, zblock_forward_zero σ hσ c chh b s c, add3_zt3]

theorem vecSum_replicate_zero (s c : ℕ) (hs : 0 < s) :
    vecSum (List.replicate s (List.replicate c (0 : ℚ))) = List.replicate c 0 := by
  have hh : ((List.replicate s (List.replicate c (0 : ℚ))).headD []).length = c := by
    cases s with
    | zero => omega
    | succ k => simp [List.replicate_succ]
  rw [vecSum, hh]
  exact foldr_replicate_fixed _ _ _ _ (addVec_replicate_zero c)

theorem avgPool_zt3 (b s c : ℕ) (hs : 0 < s) :
    avgPool (zt3 b s c) = List.replicate b (List.replicate c 0) := by
  rw [zt3, avgPool, List.map_replicate, vecSum_replicate_zero s c hs, List.map_replicate,
    zero_div]

theorem patchEmbedForward_zero (P H W outN inN : ℕ) (imgs : List Image) :
    patchEmbedForward P H W (List.replicate outN (List.replicate inN 0))
      (List.replicate outN 0) imgs =
      List.replicate imgs.length
        (List.replicate ((H / P) * (W / P)) (List.replicate outN 0)) := by
  rw [patchEmbedForward]
  have hinner : ∀ img ∈ imgs,
      ((List.range (H / P)).flatMap fun i =>
        (List.range (W / P)).map fun j =>
          linearVec (List.replicate outN (List.replicate inN 0)) (List.replicate outN 0)
            (flattenPatch P img i j)) =
      List.replicate ((H / P) * (W / P)) (List.replicate outN 0) := by
    intro img himg
    have hrow : ∀ i ∈ List.range (H / P),
        ((List.range (W / P)).map fun j =>
          linearVec (List.replicate outN (List.replicate inN 0)) (List.replicate outN 0)
            (flattenPatch P img i j)) = List.replicate (W / P) (List.replicate outN 0) := by
      intro i hi
      have := map_const_replicate (List.range (W / P)) (List.replicate outN (0 : ℚ))
        (fun j => linearVec (List.replicate outN (List.replicate inN 0))
          (List.replicate outN 0) (flattenPatch P img i j))
        (fun j hj => linearVec_zero outN inN _)
      rwa [List.length_range] at this
    have := flatMap_congr_replicate (List.range (H / P)) _ (W / P)
      (List.replicate outN (0 : ℚ)) hrow
    rwa [List.length_range] at this
  exact map_const_replicate imgs _ _ hinner

/-! ## Claim theorems -/

/-- C2: constructing a `MixerLayer` fails for every argument tuple, because
`__init__` resolves `nn.LinearNorm`, which does not exist in the framework,
and references `MLPBlock`, case-mismatched against the defined `MLPblock`;
the final class `MLP_Mixer` is truncated and cannot be instantiated. -/
theorem claim_construction_fails :
    (∀ p d t c : ℕ,
      MixerLayer.init p d t c = Except.error (PyError.attributeError "LinearNorm")) ∧
    "LinearNorm" ∉ nnAttrs ∧
    "MLPBlock" ∉ notebookGlobals ∧ "MLPblock" ∈ notebookGlobals ∧
    MLP_Mixer.init = Except.error PyError.truncatedClass :=
  ⟨fun p d t c => rfl, by decide, by decide, by decide, rfl⟩

/-- C3: on any (b, s, dim_in) input, `MLPblock.forward` returns a tensor of
the same shape, and is exactly the composition linear (dim_in → hidden),
elementwise activation, linear (hidden → dim_in). -/
theorem claim_mlpblock_shape_and_composition (σ : ℚ → ℚ) (m : MLPblock) (x : Tensor3)
    (b s dim_in hidden : ℕ) (hwf : m.Wf dim_in hidden) (hx : HasShape3 x b s dim_in) :
    HasShape3 (MLPblock.forward σ m x) b s dim_in ∧
      MLPblock.forward σ m x =
        onRows (linearVec m.w2 m.b2)
          (onRows (List.map σ) (onRows (linearVec m.w1 m.b1) x)) :=
  ⟨hasShape3_MLPblock_forward hwf hx, rfl⟩

/-- Witness for C3 at a concrete block and input. -/
theorem claim_mlpblock_shape_and_composition_witness :
    idBlock.Wf 1 1 ∧ HasShape3 [[[2]]] 1 1 1 ∧
      HasShape3 (MLPblock.forward id idBlock [[[2]]]) 1 1 1 :=
  ⟨by decide, by decide,
    (claim_mlpblock_shape_and_composition id idBlock [[[2]]] 1 1 1 1
      (by decide) (by decide)).1⟩

/-- C4: for every valid configuration and every (b, S, C) input, the Mixer
Layer's forward pass returns a tensor of the input's shape. -/
theorem claim_mixerLayer_preserves_shape (token_ln channel_ln : Vec → Vec) (σ : ℚ → ℚ)
    (token_mix channel_mix : MLPblock) (x : Tensor3) (b s c th chh : ℕ)
    (hx : HasShape3 x b s c)
    (hlt : ∀ v : Vec, (token_ln v).length = v.length)
    (hlc : ∀ v : Vec, (channel_ln v).length = v.length)
    (htm : token_mix.Wf s th) (hcm : channel_mix.Wf c chh)
    (hs : 0 < s) (hc : 0 < c) :
    HasShape3 (MixerLayer.forward token_ln channel_ln σ token_mix channel_mix x) b s c := by
  have h1 : HasShape3 (onRows token_ln x) b s c :=
    hasShape3_onRows hx fun v hv => by rw [hlt, hv]
  have h2 : HasShape3 (transpose12 (onRows token_ln x)) b c s :=
    hasShape3_transpose12 h1 hs
  have h3 : HasShape3 (token_mix.forward σ (transpose12 (onRows token_ln x))) b c s :=
    hasShape3_MLPblock_forward htm h2
  have h4 : HasShape3 (transpose12 (token_mix.forward σ (transpose12 (onRows token_ln x))))
      b s c := hasShape3_transpose12 h3 hc
  have h5 : HasShape3
      (add3 x (transpose12 (token_mix.forward σ (transpose12 (onRows token_ln x))))) b s c :=
    hasShape3_add3 hx h4
  have h6 : HasShape3 (onRows channel_ln
      (add3 x (transpose12 (token_mix.forward σ (transpose12 (onRows token_ln x)))))) b s c :=
    hasShape3_onRows h5 fun v hv => by rw [hlc, hv]
  have h7 : HasShape3 (channel_mix.forward σ (onRows channel_ln
      (add3 x (transpose12 (token_mix.forward σ (transpose12 (onRows token_ln x))))))) b s c :=
    hasShape3_MLPblock_forward hcm h6
  exact hasShape3_add3 hx h7

/-- Witness for C4 at a concrete configuration and input. -/
theorem claim_mixerLayer_preserves_shape_witness :
    HasShape3 [[[1]]] 1 1 1 ∧ idBlock.Wf 1 1 ∧
      HasShape3 (MixerLayer.forward id id id idBlock idBlock [[[1]]]) 1 1 1 :=
  ⟨by decide, by decide,
    claim_mixerLayer_preserves_shape id id id idBlock idBlock [[[1]]] 1 1 1 1 1
      (by decide) (fun v => rfl) (fun v => rfl) (by decide) (by decide)
      (by decide) (by decide)⟩

/-- C5: the Mixer Layer's forward pass performs, in order: normalize `x`,
swap the S and C axes (the normalized tensor has shape (b, C, S) there),
apply the token MLP, swap back, form the first residual
`x1 = x + token_out_restored` (of shape (b, S, C)), and normalize `x1` as
the input of the channel-mixing MLP. -/
theorem claim_mixerLayer_step_order (token_ln channel_ln : Vec → Vec) (σ : ℚ → ℚ)
    (token_mix channel_mix : MLPblock) (x : Tensor3) (b s c th chh : ℕ)
    (hx : HasShape3 x b s c)
    (hlt : ∀ v : Vec, (token_ln v).length = v.length)
    (htm : token_mix.Wf s th) (hs : 0 < s) (hc : 0 < c) :
    MixerLayer.forward token_ln channel_ln σ token_mix channel_mix x =
      add3 x (channel_mix.forward σ (onRows channel_ln
        (add3 x (transpose12 (token_mix.forward σ (transpose12 (onRows token_ln x))))))) ∧
    HasShape3 (transpose12 (onRows token_ln x)) b c s ∧
    HasShape3 (add3 x (transpose12 (token_mix.forward σ (transpose12 (onRows token_ln x)))))
      b s c := by
  have h1 : HasShape3 (onRows token_ln x) b s c :=
    hasShape3_onRows hx fun v hv => by rw [hlt, hv]
  have h2 : HasShape3 (transpose12 (onRows token_ln x)) b c s :=
    hasShape3_transpose12 h1 hs
  have h3 : HasShape3 (token_mix.forward σ (transpose12 (onRows token_ln x))) b c s :=
    hasShape3_MLPblock_forward htm h2
  exact ⟨rfl, h2, hasShape3_add3 hx (hasShape3_transpose12 h3 hc)⟩

/-- Witness for C5 at a concrete configuration and input. -/
theorem claim_mixerLayer_step_order_witness :
    MixerLayer.forward id id id idBlock idBlock [[[1]]] =
      add3 [[[1]]] (idBlock.forward id (onRows id
        (add3 [[[1]]] (transpose12 (idBlock.forward id (transpose12 (onRows id [[[1]]]))))))) :=
  (claim_mixerLayer_step_order id id id idBlock idBlock [[[1]]] 1 1 1 1 1
    (by decide) (fun v => rfl) (by decide) (by decide) (by decide)).1

/-- C1: at a concrete input the source's forward pass returns
`x + channel_out` (value `[[[3]]]`), while the spec's step 8,
`output = x1 + channel_out`, yields `[[[4]]]`: the code's second residual
operand is the original `x`, not the token-mixed `x1` the claim states. -/
theorem claim_second_residual_divergence :
    MixerLayer.forward id id id idBlock idBlock [[[1]]] = [[[3]]] ∧
      mixerLayerSpecForward id id id idBlock idBlock [[[1]]] = [[[4]]] ∧
      MixerLayer.forward id id id idBlock idBlock [[[1]]] ≠
        mixerLayerSpecForward id id id idBlock idBlock [[[1]]] := by
  refine ⟨?_, ?_, ?_⟩ <;>
    norm_num [MixerLayer.forward, mixerLayerSpecForward, MLPblock.forward, onRows,
      transpose12, transposeRect, add3, addMat, addVec, linearVec, dot, idBlock,
      List.range_succ]

/-- C6 counterexample: a run whose channel-mixing output is non-zero while
the token branch contributes zero, so replacing the second residual's
operand between `x` and `x1` does not change the output — the claim's
"channel_out non-zero" condition is the wrong trigger. -/
theorem claim_token_dependence_counterexample :
    idBlock.forward id (onRows id (add3 [[[1]]]
      (transpose12 ((zblock 1 1).forward id (transpose12 (onRows id [[[1]]])))))) ≠
      zt3 1 1 1 ∧
    MixerLayer.forward id id id (zblock 1 1) idBlock [[[1]]] =
      mixerLayerSpecForward id id id (zblock 1 1) idBlock [[[1]]] := by
  refine ⟨?_, ?_⟩ <;>
    norm_num [MixerLayer.forward, mixerLayerSpecForward, MLPblock.forward, onRows,
      transpose12, transposeRect, add3, addMat, addVec, linearVec, dot, idBlock,
      zblock, zt3, List.range_succ]

/-- C6 (amended): whenever the token-mixing branch's restored output is
non-zero — i.e. `x1 = x + token_out_restored` differs from `x` — replacing
step 8's residual operand between the raw `x` and the token-mixed `x1`
changes the Mixer Layer's output, so the output depends on
`token_out_restored`. -/
theorem claim_output_depends_on_token_branch (token_ln channel_ln : Vec → Vec) (σ : ℚ → ℚ)
    (token_mix channel_mix : MLPblock) (x : Tensor3) (b s c th chh : ℕ)
    (hx : HasShape3 x b s c)
    (hlt : ∀ v : Vec, (token_ln v).length = v.length)
    (hlc : ∀ v : Vec, (channel_ln v).length = v.length)
    (htm : token_mix.Wf s th) (hcm : channel_mix.Wf c chh)
    (hs : 0 < s) (hc : 0 < c)
    (hne : add3 x (transpose12 (token_mix.forward σ (transpose12 (onRows token_ln x)))) ≠ x) :
    MixerLayer.forward token_ln channel_ln σ token_mix channel_mix x ≠
      mixerLayerSpecForward token_ln channel_ln σ token_mix channel_mix x := by
  intro heq
  have h1 : HasShape3 (onRows token_ln x) b s c :=
    hasShape3_onRows hx fun v hv => by rw [hlt, hv]
  have h2 : HasShape3 (transpose12 (onRows token_ln x)) b c s :=
    hasShape3_transpose12 h1 hs
  have h3 : HasShape3 (token_mix.forward σ (transpose12 (onRows token_ln x))) b c s :=
    hasShape3_MLPblock_forward htm h2
  have hx1 : HasShape3
      (add3 x (transpose12 (token_mix.forward σ (transpose12 (onRows token_ln x))))) b s c :=
    hasShape3_add3 hx (hasShape3_transpose12 h3 hc)
  have h6 : HasShape3 (onRows channel_ln
      (add3 x (transpose12 (token_mix.forward σ (transpose12 (onRows token_ln x)))))) b s c :=
    hasShape3_onRows hx1 fun v hv => by rw [hlc, hv]
  have hch : HasShape3 (channel_mix.forward σ (onRows channel_ln
      (add3 x (transpose12 (token_mix.forward σ (transpose12 (onRows token_ln x))))))) b s c :=
    hasShape3_MLPblock_forward hcm h6
  have heq2 : add3 x (channel_mix.forward σ (onRows channel_ln
        (add3 x (transpose12 (token_mix.forward σ (transpose12 (onRows token_ln x))))))) =
      add3 (add3 x (transpose12 (token_mix.forward σ (transpose12 (onRows token_ln x)))))
        (channel_mix.forward σ (onRows channel_ln
          (add3 x (transpose12 (token_mix.forward σ (transpose12 (onRows token_ln x))))))) :=
    heq
  refine hne ?_
  exact (add3_left_cancel
    (channel_mix.forward σ (onRows channel_ln
      (add3 x (transpose12 (token_mix.forward σ (transpose12 (onRows token_ln x)))))))
    x (add3 x (transpose12 (token_mix.forward σ (transpose12 (onRows token_ln x))))) s c
    (by rw [hx.1, hch.1]) (by rw [hx1.1, hch.1]) hx.2 hx1.2 hch.2 heq2).symm

/-- Witness for the amended C6: a run with non-zero token contribution on
which the code output and the spec output differ. -/
theorem claim_output_depends_on_token_branch_witness :
    MixerLayer.forward id id id idBlock idBlock [[[1]]] ≠
      mixerLayerSpecForward id id id idBlock idBlock [[[1]]] :=
  claim_output_depends_on_token_branch id id id idBlock idBlock [[[1]]] 1 1 1 1 1
    (by decide) (fun v => rfl) (fun v => rfl) (by decide) (by decide)
    (by decide) (by decide)
    (by norm_num [MLPblock.forward, onRows, transpose12, transposeRect, add3, addMat,
      addVec, linearVec, dot, idBlock, List.range_succ])

/-- C8: the forward passes of the MLP block and the Mixer layer are pure
functions of their parameters and input — identical parameters and
identical inputs give identical outputs. -/
theorem claim_forward_deterministic (token_ln channel_ln : Vec → Vec) (σ : ℚ → ℚ)
    (m m2 token_mix token_mix2 channel_mix channel_mix2 : MLPblock) (x x2 y y2 : Tensor3)
    (hm : m = m2) (hx : x = x2) (htm : token_mix = token_mix2)
    (hcm : channel_mix = channel_mix2) (hy : y = y2) :
    MLPblock.forward σ m x = MLPblock.forward σ m2 x2 ∧
      MixerLayer.forward token_ln channel_ln σ token_mix channel_mix y =
        MixerLayer.forward token_ln channel_ln σ token_mix2 channel_mix2 y2 := by
  subst hm hx htm hcm hy
  exact ⟨rfl, rfl⟩

/-- Witness for C8 at concrete parameters and input. -/
theorem claim_forward_deterministic_witness :
    MLPblock.forward id idBlock [[[1]]] = MLPblock.forward id idBlock [[[1]]] ∧
      MixerLayer.forward id id id idBlock idBlock [[[1]]] =
        MixerLayer.forward id id id idBlock idBlock [[[1]]] :=
  claim_forward_deterministic id id id idBlock idBlock idBlock idBlock idBlock idBlock
    [[[1]]] [[[1]]] [[[1]]] [[[1]]] rfl rfl rfl rfl rfl

/-- C10: swapping axes 1 and 2 twice on a rectangular (b, s, c) tensor with
a positive channel dimension returns the original tensor — the involution
the Mixer Layer relies on to restore the token-MLP output's layout. -/
theorem claim_transpose_involution (x : Tensor3) (b s c : ℕ)
    (hx : HasShape3 x b s c) (hc : 0 < c) :
    transpose12 (transpose12 x) = x :=
  transpose12_involution hx hc

/-- Witness for C10 at a concrete 1×2×2 tensor. -/
theorem claim_transpose_involution_witness :
    HasShape3 [[[1, 2], [3, 4]]] 1 2 2 ∧
      transpose12 (transpose12 [[[1, 2], [3, 4]]]) = [[[1, 2], [3, 4]]] :=
  ⟨by decide, claim_transpose_involution [[[1, 2], [3, 4]]] 1 2 2 (by decide) (by decide)⟩

/-- C7: patch embedding requires `H % P = 0` and `W % P = 0`, otherwise its
eager construction-time check fails with a ConfigurationError — in
particular for H=33 with P=8, whatever W is; when the divisibility holds
the check passes and the forward output has shape (batch, (H/P)·(W/P), C). -/
theorem claim_patchEmbed_contract :
    (∀ W : ℕ, patchEmbedCheck 33 W 8 = Except.error ConfigError.configurationError) ∧
    (∀ (H W P C k b : ℕ) (wts : Mat) (bias : Vec) (imgs : List Image),
      H % P = 0 → W % P = 0 → MatShape wts C k → bias.length = C → imgs.length = b →
      patchEmbedCheck H W P = Except.ok () ∧
      HasShape3 (patchEmbedForward P H W wts bias imgs) b ((H / P) * (W / P)) C) := by
  constructor
  · intro W
    simp [patchEmbedCheck]
  · intro H W P C k b wts bias imgs hH hW hwts hbias himgs
    refine ⟨by rw [patchEmbedCheck, if_pos ⟨hH, hW⟩], ?_, ?_⟩
    · simp [patchEmbedForward, himgs]
    · intro m hm
      rw [patchEmbedForward, List.mem_map] at hm
      obtain ⟨img, himg, rfl⟩ := hm
      constructor
      · rw [List.length_flatMap]
        have hlens : (List.range (H / P)).map
            (List.length ∘ fun i => (List.range (W / P)).map fun j =>
              linearVec wts bias (flattenPatch P img i j)) =
            List.replicate (H / P) (W / P) := by
          have := map_const_replicate (List.range (H / P)) (W / P)
            (List.length ∘ fun i => (List.range (W / P)).map fun j =>
              linearVec wts bias (flattenPatch P img i j))
            (fun i hi => by simp)
          rwa [List.length_range] at this
        rw [hlens, List.sum_replicate, smul_eq_mul]
      · intro r hr
        rw [List.mem_flatMap] at hr
        obtain ⟨i, hi, hr2⟩ := hr
        rw [List.mem_map] at hr2
        obtain ⟨j, hj, rfl⟩ := hr2
        rw [length_linearVec, hwts.1, hbias]
        omega

/-- Witness for C7 at a concrete dividing configuration. -/
theorem claim_patchEmbed_contract_witness :
    patchEmbedCheck 2 2 2 = Except.ok () ∧
      HasShape3 (patchEmbedForward 2 2 2 [[0, 0, 0, 0]] [0] [[[[0, 0], [0, 0]]]])
        1 1 1 :=
  claim_patchEmbed_contract.2 2 2 2 1 4 1 [[0, 0, 0, 0]] [0] [[[[0, 0], [0, 0]]]]
    (by decide) (by decide) (by decide) (by decide) (by decide)

/-- C9: the spec's end-to-end sanity check — the (num_classes 10,
num_blocks 2, patch 16, hidden 128, token_hidden 256, channel_hidden 512,
64×64) network with every weight matrix and bias vector zero maps a batch
of 4 zero images to logits of exact value 0 for every class, for any
activation fixing 0 and any normalization fixing the zero vector. -/
theorem claim_zero_network_zero_logits (σ : ℚ → ℚ) (ln : Vec → Vec)
    (hσ : σ 0 = 0) (hln : ∀ n : ℕ, ln (List.replicate n 0) = List.replicate n 0) :
    MixerNetwork.forward σ ln 16 64 64 zeroMixerNet zeroImages4 =
      List.replicate 4 (List.replicate 10 0) := by
  have hembed : patchEmbedForward 16 64 64 zeroMixerNet.embedW zeroMixerNet.embedB
      zeroImages4 = zt3 4 16 128 := by
    show patchEmbedForward 16 64 64 (List.replicate 128 (List.replicate 768 0))
      (List.replicate 128 0) zeroImages4 = zt3 4 16 128
    rw [patchEmbedForward_zero]
    norm_num [zeroImages4, zt3]
  have hmix : zeroMixerNet.layers.foldl
      (fun acc l => MixerLayer.forward ln ln σ l.tokenMix l.channelMix acc)
      (zt3 4 16 128) = zt3 4 16 128 := by
    rw [show zeroMixerNet.layers =
      List.replicate 2 (⟨zblock 16 256, zblock 128 512⟩ : MixerLayerParams) from rfl]
    exact foldl_replicate_fixed _ 2 _ _
      (mixerLayer_forward_zero ln σ hσ hln 4 16 128 256 512 (by norm_num) (by norm_num))
  have hpool : avgPool (zt3 4 16 128) = List.replicate 4 (List.replicate 128 0) :=
    avgPool_zt3 4 16 128 (by norm_num)
  have hhead : (List.replicate 4 (List.replicate 128 (0 : ℚ))).map
      (linearVec zeroMixerNet.headW zeroMixerNet.headB) =
      List.replicate 4 (List.replicate 10 0) := by
    show (List.replicate 4 (List.replicate 128 (0 : ℚ))).map
        (linearVec (List.replicate 10 (List.replicate 128 0)) (List.replicate 10 0)) =
      List.replicate 4 (List.replicate 10 0)
    rw [List.map_replicate, linearVec_zero]
  show (avgPool (zeroMixerNet.layers.foldl
      (fun acc l => MixerLayer.forward ln ln σ l.tokenMix l.channelMix acc)
      (patchEmbedForward 16 64 64 zeroMixerNet.embedW zeroMixerNet.embedB zeroImages4))).map
    (linearVec zeroMixerNet.headW zeroMixerNet.headB) =
    List.replicate 4 (List.replicate 10 0)
  rw [hembed, hmix, hpool, hhead]

/-- Witness for C9 with the identity activation and normalization. -/
theorem claim_zero_network_zero_logits_witness :
    MixerNetwork.forward id id 16 64 64 zeroMixerNet zeroImages4 =
      List.replicate 4 (List.replicate 10 0) :=
  claim_zero_network_zero_logits id id rfl fun n => rfl

end MLPMixer
